import Mathlib

/-!
# Verification of the Arrow client session layer and service-table codec

Shallow embedding of `src/net/arrow/proto/session.rs` and
`src/net/arrow/proto/msg/control/svc_table.rs` (backwardn/arrow-client).

Rust byte buffers (`Bytes`, `BytesMut`) are modelled as `List Nat` (each
element a byte value), machine integers as `Nat`, and the fallible /
asynchronous return types (`Poll`, `StartSend`) as explicit inductive result
types.  The parked-task handles (`futures::task::Task`) carry no data relevant
to the verified properties; they are modelled as `Option Unit`, with
`Option.take` / `task::park` mirrored by setting the slot to `none` / `some ()`
exactly where the source does.
-/

namespace ArrowClient

/-- Kind of an `std::io::Error`, restricted to the kinds the sources build. -/
inductive IOErrorKind where
  | connectionReset
  | other
  deriving DecidableEq, Repr

/-- Model of `std::io::Error`: a kind together with its message string. -/
structure IOErr where
  kind : IOErrorKind
  msg : String
  deriving DecidableEq, Repr

/-- Model of `ControlMessage::hup(control_msg_id, session_id, error_code)`.
Modelled from the spec: the `ControlMessage` type lives outside the two
provided source files; §6 of the spec gives its HUP constructor the fields
`(control_msg_id, session_id, error_code)`, which we record verbatim.  The
byte-level payload encoding of a HUP is not needed by any claim. -/
inductive ControlMessage where
  | hup (control_msg_id : Nat) (session_id : Nat) (error_code : Nat)
  deriving DecidableEq, Repr

/-- Body of an Arrow Message: either raw session bytes or a control message.
Modelled from the spec: `ArrowMessage` is an external collaborator; §6 only
requires that it expose a `(service, session)` header and a payload and be
constructible from `(service_id, session_id, bytes-or-control-message)`. -/
inductive MsgBody where
  | data (bytes : List Nat)
  | control (c : ControlMessage)
  deriving DecidableEq, Repr

/-- Model of `ArrowMessage`: header fields plus the body. -/
structure ArrowMessage where
  service : Nat
  session : Nat
  body : MsgBody
  deriving DecidableEq, Repr

/-- Model of `msg.payload()` as used by `push_output_message`: the raw bytes carried by
the message.  Control messages are never pushed into a session's output by the
code under verification, so their byte encoding is irrelevant here. -/
def ArrowMessage.payload (m : ArrowMessage) : List Nat :=
  match m.body with
  | .data b => b
  | .control _ => []

/-- Model of `const INPUT_BUFFER_LIMIT: usize = 32768;` (session.rs line 43). -/
def INPUT_BUFFER_LIMIT : Nat := 32768

/-- Model of `const OUTPUT_BUFFER_LIMIT: usize = 4 * 1024 * 1024 * 1024;`
(session.rs line 44).  Note this is 4 GiB = 4_294_967_296, not 4 GiB − 1. -/
def OUTPUT_BUFFER_LIMIT : Nat := 4 * 1024 * 1024 * 1024

/-- Model of `struct SessionContext` (session.rs lines 47-57). -/
structure SessionContext where
  service_id : Nat
  session_id : Nat
  input : List Nat
  output : List Nat
  input_ready : Option Unit
  input_empty : Option Unit
  output_ready : Option Unit
  closed : Bool
  error : Option IOErr
  deriving DecidableEq, Repr

namespace SessionContext

/-- Model of `SessionContext::new` (session.rs lines 61-73). -/
def new (service_id : Nat) (session_id : Nat) : SessionContext where
  service_id := service_id
  session_id := session_id
  input := []
  output := []
  input_ready := none
  input_empty := none
  output_ready := none
  closed := false
  error := none

/-- Model of `SessionContext::close` (session.rs lines 213-215). -/
def close (ctx : SessionContext) : SessionContext :=
  { ctx with closed := true }

/-- Model of `SessionContext::set_error` (session.rs lines 219-225): ignore all errors
after the connection gets closed. -/
def set_error (ctx : SessionContext) (err : IOErr) : SessionContext :=
  if !ctx.closed then
    { ctx with closed := true, error := some err }
  else
    ctx

/-- Model of `SessionContext::push_output_message` (session.rs lines 76-98).
`self.output_ready.take()` (followed by `task.unpark()`) is modelled by
clearing the slot. -/
def push_output_message (ctx : SessionContext) (msg : ArrowMessage) :
    SessionContext :=
  if ctx.closed then
    ctx
  else
    let data := msg.payload
    if ctx.output.length + data.length > OUTPUT_BUFFER_LIMIT then
      ctx.set_error ⟨IOErrorKind.other, "output buffer limit exceeded"⟩
    else
      let ctx := { ctx with output := ctx.output ++ data }
      if ctx.output.length > 0 then
        { ctx with output_ready := none }
      else
        ctx

/-- Outcome of `Poll<Option<ArrowMessage>, io::Error>`. -/
inductive TakePoll where
  | ready (m : Option ArrowMessage)
  | notReady
  | ioError (e : IOErr)
  deriving DecidableEq, Repr

/-- Model of `SessionContext::take_input_message` (session.rs lines 106-135), returning
the `Poll` outcome together with the mutated context.  The source first takes
the whole input buffer, unconditionally takes (and wakes) `input_empty`, then
branches on the drained data, the `closed` flag and `self.error.take()`. -/
def take_input_message (ctx : SessionContext) :
    TakePoll × SessionContext :=
  let data := ctx.input
  let ctx := { ctx with input := [], input_empty := none }
  if data.length > 0 then
    (.ready (some ⟨ctx.service_id, ctx.session_id, .data data⟩), ctx)
  else if ctx.closed then
    match ctx.error with
    | some err => (.ioError err, { ctx with error := none })
    | none => (.ready none, ctx)
  else
    (.notReady, { ctx with input_ready := some () })

/-- Outcome of `StartSend<Bytes, io::Error>`. -/
inductive SendPoll where
  | ready
  | notReady (rest : List Nat)
  | ioError (e : IOErr)
  deriving DecidableEq, Repr

/-- Model of `SessionContext::push_input_data` (session.rs lines 143-173).
`msg.split_to(take)` splits the chunk into its first `take` bytes (appended to
`input`) and the remainder (returned in the `NotReady` case). -/
def push_input_data (ctx : SessionContext) (msg : List Nat) :
    SendPoll × SessionContext :=
  if ctx.closed then
    (.ioError ⟨IOErrorKind.connectionReset, "connection has been closed"⟩, ctx)
  else
    let take :=
      if msg.length + ctx.input.length > INPUT_BUFFER_LIMIT then
        INPUT_BUFFER_LIMIT - ctx.input.length
      else
        msg.length
    let rest := msg.drop take
    let ctx := { ctx with input := ctx.input ++ msg.take take }
    let ctx :=
      if ctx.input.length > 0 then { ctx with input_ready := none } else ctx
    if rest.length > 0 then
      (.notReady rest, { ctx with input_empty := some () })
    else
      (.ready, ctx)

/-- Outcome of `Poll<(), io::Error>`. -/
inductive FlushPoll where
  | ready
  | notReady
  deriving DecidableEq, Repr

/-- Model of `SessionContext::flush_input_buffer` (session.rs lines 178-187). -/
def flush_input_buffer (ctx : SessionContext) : FlushPoll × SessionContext :=
  if ctx.input.length > 0 then
    (.notReady, { ctx with input_empty := some () })
  else
    (.ready, ctx)

/-- Outcome of `Poll<Option<Bytes>, io::Error>`. -/
inductive OutPoll where
  | ready (b : Option (List Nat))
  | notReady
  deriving DecidableEq, Repr

/-- Model of `SessionContext::take_output_data` (session.rs lines 194-209). -/
def take_output_data (ctx : SessionContext) : OutPoll × SessionContext :=
  let data := ctx.output
  let ctx := { ctx with output := [] }
  if data.length > 0 then
    (.ready (some data), ctx)
  else if ctx.closed then
    (.ready none, ctx)
  else
    (.notReady, { ctx with output_ready := some () })

end SessionContext

/-- Model of a session's `Rc<RefCell<SessionContext>>` holder, `struct Session`
(session.rs lines 229-232).  Interior mutability is modelled by returning the
updated context from each operation. -/
structure Session where
  service_id : Nat
  ctx : SessionContext
  deriving DecidableEq, Repr

/-- Model of `Session::new` (session.rs lines 236-243). -/
def Session.new (service_id : Nat) (session_id : Nat) : Session where
  service_id := service_id
  ctx := SessionContext.new service_id session_id

/-- Model of `Session::take` (session.rs lines 256-259): delegate to
`take_input_message` on the shared context. -/
def Session.take (s : Session) : SessionContext.TakePoll × Session :=
  let r := s.ctx.take_input_message
  (r.1, { s with ctx := r.2 })

/-- Model of `Session::push` (session.rs lines 246-249): delegate to
`push_output_message` on the shared context. -/
def Session.push (s : Session) (m : ArrowMessage) : Session :=
  { s with ctx := s.ctx.push_output_message m }

/-- Model of `HashMap::remove`: look up a key in the association list and
return the removed value (if any) together with the list without that
binding. -/
def sessionsRemove : List (Nat × Session) → Nat →
    Option Session × List (Nat × Session)
  | [], _ => (none, [])
  | (k, s) :: tl, id =>
    if k = id then
      (some s, tl)
    else
      let r := sessionsRemove tl id
      (r.1, (k, s) :: r.2)

/-- Model of `HashMap::insert` for a key known to be absent (the manager only
re-inserts a binding it has just removed). -/
def sessionsInsert (l : List (Nat × Session)) (id : Nat) (s : Session) :
    List (Nat × Session) :=
  l ++ [(id, s)]

/-- Model of `SessionManager::create_hup_message` (session.rs lines 426-441):
an Arrow Message for `(service_id, session_id)` carrying
`ControlMessage::hup(0, session_id, error_code)` (the control message id is
the hard-coded placeholder `0`). -/
def create_hup_message (service_id : Nat) (session_id : Nat)
    (error_code : Nat) : ArrowMessage :=
  ⟨service_id, session_id, .control (.hup 0 session_id error_code)⟩

/-- State of `SessionManager` relevant to polling (session.rs lines 338-342):
the session map and the FIFO `poll_order` queue.  The reactor handle takes no
part in `poll`. -/
structure SessionManager where
  sessions : List (Nat × Session)
  poll_order : List Nat
  deriving DecidableEq, Repr

/-- Outcome of `Poll<Option<ArrowMessage>, ArrowError>` as returned by
`SessionManager::poll`; every return path of the source yields `Ok`, so no
error constructor is ever produced. -/
inductive ManagerPoll where
  | ready (m : Option ArrowMessage)
  | notReady
  deriving DecidableEq, Repr

/-- Model of the `while count > 0` loop of `SessionManager::poll`
(session.rs lines 449-494), with the loop counter as explicit fuel.
Each iteration pops the front of `poll_order`; if the popped id has a session,
`take()` decides: `NotReady` re-queues at the tail and continues;
`Ready(Some)` re-queues at the tail and returns the message; `Ready(None)`
drops the session and returns a HUP with code 0; an error drops the session
and returns a HUP with code 0x03. -/
def pollLoop : Nat → SessionManager → SessionManager × ManagerPoll
  | 0, sm => (sm, .notReady)
  | Nat.succ count, sm =>
    match sm.poll_order with
    | [] => pollLoop count sm
    | id :: rest =>
      let rem := sessionsRemove sm.sessions id
      match rem.1 with
      | none => pollLoop count ⟨rem.2, rest⟩
      | some session =>
        let tk := session.ctx.take_input_message
        let session' : Session := ⟨session.service_id, tk.2⟩
        match tk.1 with
        | .notReady =>
          pollLoop count ⟨sessionsInsert rem.2 id session', rest ++ [id]⟩
        | .ready none =>
          (⟨rem.2, rest⟩, .ready (some (create_hup_message session.service_id id 0)))
        | .ready (some m) =>
          (⟨sessionsInsert rem.2 id session', rest ++ [id]⟩, .ready (some m))
        | .ioError _ =>
          (⟨rem.2, rest⟩, .ready (some (create_hup_message session.service_id id 3)))

/-- Model of `SessionManager::poll` (session.rs lines 448-495): run the loop
with `count` initialised to `poll_order.len()`. -/
def SessionManager.poll (sm : SessionManager) : SessionManager × ManagerPoll :=
  pollLoop sm.poll_order.length sm

/-- Instrumented copy of `pollLoop` that also records the session ids popped
from the front of `poll_order`, in order.  It is used only to state the
FIFO-visit property of `poll`; it erases to `pollLoop` (proved below). -/
def pollLoopVisited : Nat → SessionManager →
    (SessionManager × ManagerPoll) × List Nat
  | 0, sm => ((sm, .notReady), [])
  | Nat.succ count, sm =>
    match sm.poll_order with
    | [] =>
      let r := pollLoopVisited count sm
      (r.1, r.2)
    | id :: rest =>
      let rem := sessionsRemove sm.sessions id
      match rem.1 with
      | none =>
        let r := pollLoopVisited count ⟨rem.2, rest⟩
        (r.1, id :: r.2)
      | some session =>
        let tk := session.ctx.take_input_message
        let session' : Session := ⟨session.service_id, tk.2⟩
        match tk.1 with
        | .notReady =>
          let r := pollLoopVisited count ⟨sessionsInsert rem.2 id session', rest ++ [id]⟩
          (r.1, id :: r.2)
        | .ready none =>
          (((⟨rem.2, rest⟩ : SessionManager),
            .ready (some (create_hup_message session.service_id id 0))), [id])
        | .ready (some m) =>
          (((⟨sessionsInsert rem.2 id session', rest ++ [id]⟩ : SessionManager),
            .ready (some m)), [id])
        | .ioError _ =>
          (((⟨rem.2, rest⟩ : SessionManager),
            .ready (some (create_hup_message session.service_id id 3))), [id])

/-- Model of `MacAddr` (`net::raw::ether`): six octets.  Only its `octets`
view is used by the codec. -/
structure MacAddr where
  a : Nat
  b : Nat
  c : Nat
  d : Nat
  e : Nat
  f : Nat
  deriving DecidableEq, Repr

/-- Octet list of a MAC address, as produced by `MacAddr::octets`. -/
def MacAddr.octets (m : MacAddr) : List Nat :=
  [m.a, m.b, m.c, m.d, m.e, m.f]

/-- Model of an IP address (`std::net::IpAddr`): either four IPv4 octets or
sixteen IPv6 bytes. -/
inductive IpAddr where
  | v4 (a b c d : Nat)
  | v6 (bytes : List Nat)
  deriving DecidableEq, Repr

/-- Modelled from the spec: `IpAddrEx::version` (`net::utils`, not under
`src/`); §4.1 gives the wire field as `IP version: 4 or 6`. -/
def IpAddr.version : IpAddr → Nat
  | .v4 _ _ _ _ => 4
  | .v6 _ => 6

/-- Modelled from the spec: `IpAddrEx::bytes` (`net::utils`, not under
`src/`); §6 states that IPv4 addresses occupy the first 4 bytes of the
16-byte field with the remaining 12 bytes zero, and IPv6 addresses fill all
16 bytes. -/
def IpAddr.bytes : IpAddr → List Nat
  | .v4 a b c d => [a, b, c, d] ++ List.replicate 12 0
  | .v6 bs => bs

/-- Model of `std::net::SocketAddr`: IP address plus port. -/
structure SockAddr where
  ip : IpAddr
  port : Nat
  deriving DecidableEq, Repr

/-- Model of `enum ServiceType` (svc_table.rs lines 41-60). -/
inductive ServiceType where
  | controlProtocol
  | rtsp
  | lockedRTSP
  | unknownRTSP
  | unsupportedRTSP
  | http
  | mjpeg
  | lockedMJPEG
  | tcp
  deriving DecidableEq, Repr

/-- Model of `ServiceType::code` (svc_table.rs lines 64-76). -/
def ServiceType.code : ServiceType → Nat
  | .controlProtocol => 0x0000
  | .rtsp => 0x0001
  | .lockedRTSP => 0x0002
  | .unknownRTSP => 0x0003
  | .unsupportedRTSP => 0x0004
  | .http => 0x0005
  | .mjpeg => 0x0006
  | .lockedMJPEG => 0x0007
  | .tcp => 0xffff

/-- Model of `struct Service` (svc_table.rs lines 133-139).  A Rust `String`
path is modelled by its UTF-8 byte list. -/
structure Service where
  svc_type : ServiceType
  id : Nat
  mac : Option MacAddr
  address : Option SockAddr
  path : Option (List Nat)
  deriving DecidableEq, Repr

/-- Model of `Service::control` (svc_table.rs lines 154-162). -/
def Service.control : Service where
  svc_type := .controlProtocol
  id := 0
  mac := none
  address := none
  path := none

/-- Model of `Service::rtsp` (svc_table.rs lines 165-173). -/
def Service.rtsp (id : Nat) (mac : MacAddr) (address : SockAddr)
    (path : List Nat) : Service where
  svc_type := .rtsp
  id := id
  mac := some mac
  address := some address
  path := some path

/-- Model of `Service::http` (svc_table.rs lines 209-217). -/
def Service.http (id : Nat) (mac : MacAddr) (address : SockAddr) : Service where
  svc_type := .http
  id := id
  mac := some mac
  address := some address
  path := none

/-- Model of `self.path().unwrap_or("")` as used by the codec. -/
def Service.path_or_empty (s : Service) : List Nat :=
  s.path.getD []

/-- Model of `struct ServiceHeader` (svc_table.rs lines 81-88): the
`repr(packed)` fixed 29-byte prefix of an encoded service.  The `mac_addr`
and `ip_addr` fields hold their octet lists. -/
structure ServiceHeader where
  svc_id : Nat
  svc_type : Nat
  mac_addr : List Nat
  ip_version : Nat
  ip_addr : List Nat
  port : Nat
  deriving DecidableEq, Repr

/-- Model of `impl From<&Service> for ServiceHeader` (svc_table.rs lines
90-114): absent MAC defaults to six zero octets, absent address to
`0.0.0.0:0`. -/
def ServiceHeader.fromService (service : Service) : ServiceHeader :=
  let maddress := service.mac.getD ⟨0, 0, 0, 0, 0, 0⟩
  let saddress := service.address.getD ⟨IpAddr.v4 0 0 0 0, 0⟩
  { svc_id := service.id
    svc_type := service.svc_type.code
    mac_addr := maddress.octets
    ip_version := saddress.ip.version
    ip_addr := saddress.ip.bytes
    port := saddress.port }

/-- Big-endian byte pair of a 16-bit integer, as produced by `u16::to_be`
followed by a byte-level view of the packed struct. -/
def u16be (n : Nat) : List Nat :=
  [n / 256 % 256, n % 256]

/-- Byte image of a `ServiceHeader`.  Modelled from the spec for the layout
of `utils::as_bytes` over the `repr(packed)` struct (`utils` is not under
`src/`): §4.1 lays the fields out in declaration order with big-endian
integers, giving 2 + 2 + 6 + 1 + 16 + 2 = 29 bytes. -/
def ServiceHeader.encodeBytes (h : ServiceHeader) : List Nat :=
  u16be h.svc_id ++ u16be h.svc_type ++ h.mac_addr ++ [h.ip_version] ++
    h.ip_addr ++ u16be h.port

/-- Model of `impl Encode for ServiceHeader` (svc_table.rs lines 116-129):
append the byte image to the buffer. -/
def ServiceHeader.encode (h : ServiceHeader) (buf : List Nat) : List Nat :=
  buf ++ h.encodeBytes

/-- Model of `impl Encode for Service` (svc_table.rs lines 284-295): header,
then the path bytes, then a NUL terminator. -/
def Service.encode (s : Service) (buf : List Nat) : List Nat :=
  (ServiceHeader.fromService s).encode buf ++ s.path_or_empty ++ [0]

/-- Value of `mem::size_of::<ServiceHeader>()`: the struct is `repr(packed)`,
so the size is the sum of the field sizes, 2 + 2 + 6 + 1 + 16 + 2 = 29. -/
def sizeOfServiceHeader : Nat := 29

/-- Model of `impl MessageBody for Service` (svc_table.rs lines 297-306):
`size_of::<ServiceHeader>() + path length + 1`. -/
def Service.len (s : Service) : Nat :=
  sizeOfServiceHeader + (s.path_or_empty.length + 1)

/-- Model of `struct SimpleServiceTable` (svc_table.rs lines 332-334). -/
structure SimpleServiceTable where
  services : List Service
  deriving DecidableEq, Repr

/-- Model of the `for svc in &self.services` lookup loop inside
`SimpleServiceTable::get` (svc_table.rs lines 351-357): first stored service
whose id equals the query (`clone` is the identity here). -/
def findService (id : Nat) : List Service → Option Service
  | [] => none
  | svc :: tl => if id = svc.id then some svc else findService id tl

/-- Model of `SimpleServiceTable::get` (svc_table.rs lines 346-358): id 0
always yields the synthesized Control Protocol service; otherwise scan the
stored services in order. -/
def SimpleServiceTable.get (t : SimpleServiceTable) (id : Nat) :
    Option Service :=
  if id = 0 then
    some Service.control
  else
    findService id t.services

/-- Model of `impl Encode for SimpleServiceTable` (svc_table.rs lines
365-374): encode every stored service in order, then the Control Protocol
service. -/
def SimpleServiceTable.encode (t : SimpleServiceTable) (buf : List Nat) :
    List Nat :=
  Service.control.encode (t.services.foldl (fun b s => s.encode b) buf)

/-- Model of `impl MessageBody for SimpleServiceTable` (svc_table.rs lines
376-388): sum of the stored services' lengths plus the Control Protocol
service's length. -/
def SimpleServiceTable.len (t : SimpleServiceTable) : Nat :=
  t.services.foldl (fun n s => n + s.len) 0 + Service.control.len

/-- Model of the address-resolution step of `SessionManager::connect`
(session.rs lines 392-397).  The source ignores its `service_id` argument and
any service table: it resolves the hard-coded literal `"127.0.0.1:80"`
(`to_socket_addrs` on an IP literal parses it without consulting anything
else and yields exactly that address), so the step always succeeds with
`127.0.0.1:80`. -/
def connectResolvedAddr (_table : SimpleServiceTable) (_service_id : Nat) :
    Except IOErr SockAddr :=
  .ok ⟨IpAddr.v4 127 0 0 1, 80⟩

/-- Enumeration of the `SessionContext` operations, used to state the
closed-context invariants uniformly over all of them. -/
inductive SessionOp where
  | pushOutput (m : ArrowMessage)
  | pushInput (bytes : List Nat)
  | takeInput
  | takeOutput
  | flushInput
  | closeCtx
  | recordError (e : IOErr)
  deriving DecidableEq, Repr

/-- Context resulting from one `SessionContext` operation (the operation's
return value, if any, is discarded). -/
def applyOp (ctx : SessionContext) : SessionOp → SessionContext
  | .pushOutput m => ctx.push_output_message m
  | .pushInput b => (ctx.push_input_data b).2
  | .takeInput => ctx.take_input_message.2
  | .takeOutput => ctx.take_output_data.2
  | .flushInput => ctx.flush_input_buffer.2
  | .closeCtx => ctx.close
  | .recordError e => ctx.set_error e

/-- Fixture: a context that was closed with a recorded error and drained. -/
def errCtx : SessionContext :=
  { SessionContext.new 1 2 with
    closed := true, error := some ⟨IOErrorKind.other, "x"⟩ }

/-- Fixture: a closed context still holding buffered data. -/
def drainCtx : SessionContext :=
  { SessionContext.new 3 4 with closed := true, input := [1, 2], output := [7] }

/-- Fixture: an open context whose output holds 4_294_967_295 bytes. -/
def hugeOutputCtx : SessionContext :=
  { SessionContext.new 1 2 with output := List.replicate 4294967295 0 }

/-- Fixture: a one-byte data message for session 2 of service 1. -/
def oneByteMsg : ArrowMessage := ⟨1, 2, .data [0]⟩

/-- UTF-8 bytes of the string `"stream"`. -/
def streamBytes : List Nat := [0x73, 0x74, 0x72, 0x65, 0x61, 0x6D]

/-- Fixture of §8 scenario 1:
`Service::rtsp(0x1234, 01:02:03:04:05:06, 192.0.2.1:554, "stream")`. -/
def testRtspService : Service :=
  Service.rtsp 0x1234 ⟨1, 2, 3, 4, 5, 6⟩ ⟨IpAddr.v4 192 0 2 1, 554⟩ streamBytes

/-- The 30-byte sequence the claim asserts to be the first 30 encoded bytes
(it contains thirteen zero bytes between the IPv4 octets and the port). -/
def claimedRtspPrefix : List Nat :=
  [0x12, 0x34, 0x00, 0x01, 0x01, 0x02, 0x03, 0x04, 0x05, 0x06, 0x04,
   0xC0, 0x00, 0x02, 0x01, 0, 0, 0, 0, 0, 0, 0, 0, 0, 0, 0, 0, 0,
   0x02, 0x2A]

/-- The actual 36-byte encoding of `testRtspService`: a 29-byte header (with
twelve zero bytes padding the IPv4 address) followed by `"stream"` and a NUL
terminator. -/
def actualRtspBytes : List Nat :=
  [0x12, 0x34, 0x00, 0x01, 0x01, 0x02, 0x03, 0x04, 0x05, 0x06, 0x04,
   0xC0, 0x00, 0x02, 0x01, 0, 0, 0, 0, 0, 0, 0, 0, 0, 0, 0, 0,
   0x02, 0x2A, 0x73, 0x74, 0x72, 0x65, 0x61, 0x6D, 0x00]

/-- Fixture: a service table with no stored services. -/
def emptyServiceTable : SimpleServiceTable := ⟨[]⟩

/-- Fixture: a two-entry service table. -/
def miniServiceTable : SimpleServiceTable :=
  ⟨[Service.http 9 ⟨0, 1, 2, 3, 4, 5⟩ ⟨IpAddr.v4 10 0 0 1, 80⟩,
    Service.http 9 ⟨9, 9, 9, 9, 9, 9⟩ ⟨IpAddr.v4 10 0 0 2, 81⟩]⟩

/-- Fixture: a manager holding one fully drained, closed session (id 5 on
service 7). -/
def hupFixtureMgr : SessionManager :=
  ⟨[(5, ⟨7, (SessionContext.new 7 5).close⟩)], [5]⟩



end ArrowClient

namespace ArrowClient

open SessionContext

/-! ## Helper lemmas -/

/-- A service's buffer-passing encoder only appends: encoding into `buf` is
`buf` followed by the service's own byte image. -/
theorem Service.encode_eq_append (s : Service) (buf : List Nat) :
    s.encode buf = buf ++ s.encode [] := by
  simp [Service.encode, ServiceHeader.encode]

/-- The encode fold over a list of services appends the concatenation of
their byte images. -/
theorem foldl_encode_eq_append (l : List Service) (buf : List Nat) :
    l.foldl (fun b s => s.encode b) buf =
      buf ++ (l.map (fun s => s.encode [])).flatten := by
  induction l generalizing buf with
  | nil => simp
  | cons s tl ih =>
    simp only [List.foldl_cons, List.map_cons, List.flatten]
    rw [ih, Service.encode_eq_append]
    simp [List.append_assoc]

/-- The length fold over a list of services sums their lengths. -/
theorem foldl_len_eq_sum (l : List Service) (n : Nat) :
    l.foldl (fun n s => n + s.len) n = n + (l.map Service.len).sum := by
  induction l generalizing n with
  | nil => simp
  | cons s tl ih => simp [List.foldl_cons, ih, Nat.add_assoc]

/-- The lookup loop of `SimpleServiceTable::get` coincides with `find?` on
the stored list. -/
theorem findService_eq_find (id : Nat) (l : List Service) :
    findService id l = l.find? (fun s => s.id == id) := by
  induction l with
  | nil => rfl
  | cons s tl ih =>
    by_cases h : id = s.id
    · simp [findService, List.find?, h]
    · have hb : (s.id == id) = false := by
        simp [Nat.beq_eq_true_eq]
        exact fun he => h he.symm
      simp [findService, List.find?, h, hb, ih]

/-- Appending a message to the output of an open context below the limit. -/
theorem push_output_append_of_le (ctx : SessionContext) (m : ArrowMessage)
    (hc : ctx.closed = false)
    (hle : ctx.output.length + m.payload.length ≤ OUTPUT_BUFFER_LIMIT) :
    (ctx.push_output_message m).output = ctx.output ++ m.payload ∧
    (ctx.push_output_message m).closed = false ∧
    (ctx.push_output_message m).error = ctx.error := by
  have hnot : ¬(ctx.output.length + m.payload.length > OUTPUT_BUFFER_LIMIT) :=
    not_lt.mpr hle
  simp only [push_output_message, hc, Bool.false_eq_true, if_false, if_neg hnot]
  split <;> simp_all

/-! ## Claim theorems -/

/-- C7: `set_error(e)` on an open context sets `closed = true` and records
`e`; on an already-closed context (whether closed by `close()` or by a prior
`set_error`) it leaves the context completely unchanged, so the first
recorded error wins and is never overwritten. -/
theorem set_error_first_error_wins (ctx : SessionContext) (e : IOErr) :
    (ctx.closed = false →
      ctx.set_error e = { ctx with closed := true, error := some e }) ∧
    (ctx.closed = true → ctx.set_error e = ctx) := by
  constructor <;> intro h <;> simp [set_error, h]

/-- Witness for C7 at concrete contexts: recording an error on a fresh
context, and the no-op on a closed one. -/
theorem set_error_first_error_wins_witness :
    (SessionContext.new 1 2).set_error ⟨IOErrorKind.other, "boom"⟩ =
      { SessionContext.new 1 2 with
        closed := true, error := some ⟨IOErrorKind.other, "boom"⟩ } ∧
    (SessionContext.new 1 2).close.set_error ⟨IOErrorKind.other, "boom"⟩ =
      (SessionContext.new 1 2).close :=
  ⟨(set_error_first_error_wins (SessionContext.new 1 2) _).1 rfl,
   (set_error_first_error_wins (SessionContext.new 1 2).close _).2 rfl⟩

/-- C10: on a closed context with empty input and a recorded error,
`take_input_message` returns that error and removes it from the context, so
a second call on the (still empty, closed) context returns `Ready(None)`. -/
theorem take_input_message_consumes_error (ctx : SessionContext) (e : IOErr)
    (hc : ctx.closed = true) (hi : ctx.input = []) (he : ctx.error = some e) :
    ctx.take_input_message.1 = .ioError e ∧
    ctx.take_input_message.2.error = none ∧
    ctx.take_input_message.2.closed = true ∧
    ctx.take_input_message.2.input = [] ∧
    ctx.take_input_message.2.take_input_message.1 = .ready none := by
  simp [take_input_message, hc, hi, he]

/-- Witness for C10 at `errCtx`. -/
theorem take_input_message_consumes_error_witness :
    errCtx.take_input_message.1 = .ioError ⟨IOErrorKind.other, "x"⟩ ∧
    errCtx.take_input_message.2.error = none ∧
    errCtx.take_input_message.2.take_input_message.1 = .ready none := by
  have h := take_input_message_consumes_error errCtx ⟨IOErrorKind.other, "x"⟩
    rfl rfl rfl
  exact ⟨h.1, h.2.1, h.2.2.2.2⟩

/-- C8: `get(0)` returns the Control Protocol service regardless of the
table's contents; for `id ≠ 0`, `get(id)` returns the first stored service
whose id equals `id` (`find?` on the stored list), hence `none` when no
stored service matches; the return type is an option, so `get` cannot return
an error. -/
theorem simple_service_table_get_spec (t : SimpleServiceTable) (id : Nat) :
    t.get 0 = some Service.control ∧
    (id ≠ 0 → t.get id = t.services.find? (fun s => s.id == id)) ∧
    (id ≠ 0 → (∀ s ∈ t.services, s.id ≠ id) → t.get id = none) := by
  refine ⟨by simp [SimpleServiceTable.get], fun h => ?_, fun h hall => ?_⟩
  · simp [SimpleServiceTable.get, h, findService_eq_find]
  · simp only [SimpleServiceTable.get, h, if_false, findService_eq_find]
    rw [List.find?_eq_none]
    intro s hs
    simp [Nat.beq_eq_true_eq]
    exact hall s hs

/-- Witness for C8 on `miniServiceTable`: id 0 yields the control service,
id 9 yields the first of the two stored services with that id, id 4 yields
`none`. -/
theorem simple_service_table_get_spec_witness :
    miniServiceTable.get 0 = some Service.control ∧
    miniServiceTable.get 9 =
      some (Service.http 9 ⟨0, 1, 2, 3, 4, 5⟩ ⟨IpAddr.v4 10 0 0 1, 80⟩) ∧
    miniServiceTable.get 4 = none := by
  refine ⟨(simple_service_table_get_spec miniServiceTable 9).1, ?_, ?_⟩
  · rw [(simple_service_table_get_spec miniServiceTable 9).2.1 (by decide)]
    decide
  · rw [(simple_service_table_get_spec miniServiceTable 4).2.1 (by decide)]
    decide

/-- C9: the table encoding appends, to the incoming buffer, the
concatenation of the stored services' encodings in stored order followed by
the encoding of the synthesized Control Protocol service, and the reported
length is the sum of the stored services' lengths plus the Control Protocol
service's length. -/
theorem simple_service_table_encode_hom (t : SimpleServiceTable)
    (buf : List Nat) :
    t.encode buf =
      buf ++ (t.services.map (fun s => s.encode [])).flatten ++
        Service.control.encode [] ∧
    t.len = (t.services.map Service.len).sum + Service.control.len := by
  constructor
  · rw [SimpleServiceTable.encode, foldl_encode_eq_append,
      Service.encode_eq_append]
  · rw [SimpleServiceTable.len, foldl_len_eq_sum]
    simp

/-- C2 counterexample: the first 30 bytes of the encoding of §8 scenario 1
are not the 30-byte sequence the claim lists (the claimed sequence has an
extra zero byte in the 16-byte IP field, which is inconsistent with the
claim's own total length of 36 = 29 + 7). -/
theorem service_encode_rtsp_claim_cex :
    (testRtspService.encode []).take 30 ≠ claimedRtspPrefix ∧
    (testRtspService.encode []).length = 36 := by
  decide

/-- C2 (amended): encoding `Service::rtsp(0x1234, 01:02:03:04:05:06,
192.0.2.1:554, "stream")` appends exactly 36 bytes: a 29-byte header
`12 34 00 01 01 02 03 04 05 06 04 C0 00 02 01` followed by twelve `00`
padding bytes and `02 2A`, then `73 74 72 65 61 6D 00` (`"stream"` plus a
NUL); the reported length is `29 + len(path) + 1 = 36`. -/
theorem service_encode_rtsp_bytes :
    testRtspService.encode [] = actualRtspBytes ∧
    (testRtspService.encode []).length = 36 ∧
    testRtspService.len = 36 := by
  decide

/-- C5: the address-resolution step of `connect` never consults the service
table - it always succeeds with the hard-coded `127.0.0.1:80`, for every
table and every service id, even one the table does not contain (the claim
says a failed lookup must surface an error to the `send` caller). -/
theorem connect_resolution_ignores_table :
    (∀ (t : SimpleServiceTable) (service_id : Nat),
      connectResolvedAddr t service_id = .ok ⟨IpAddr.v4 127 0 0 1, 80⟩) ∧
    emptyServiceTable.get 0x1234 = none := by
  exact ⟨fun _ _ => rfl, by decide⟩

/-- C4 (amended): with `OUTPUT_BUFFER_LIMIT = 4 * 1024 * 1024 * 1024 =
4_294_967_296` (not 4_294_967_295), `push_output_message` on a closed context
leaves it unchanged; on an open context whose `output.len + payload.len`
exceeds 4_294_967_296 it transitions to the error state (`closed = true`,
error `Other "output buffer limit exceeded"`) without appending; otherwise it
appends the full payload. -/
theorem push_output_message_limit (ctx : SessionContext) (m : ArrowMessage) :
    OUTPUT_BUFFER_LIMIT = 4294967296 ∧
    (ctx.closed = true → ctx.push_output_message m = ctx) ∧
    (ctx.closed = false →
      4294967296 < ctx.output.length + m.payload.length →
      ctx.push_output_message m =
        { ctx with
          closed := true,
          error := some ⟨IOErrorKind.other, "output buffer limit exceeded"⟩ }) ∧
    (ctx.closed = false →
      ctx.output.length + m.payload.length ≤ 4294967296 →
      (ctx.push_output_message m).output = ctx.output ++ m.payload ∧
      (ctx.push_output_message m).closed = false ∧
      (ctx.push_output_message m).error = ctx.error) := by
  have hL : OUTPUT_BUFFER_LIMIT = 4294967296 := by
    norm_num [OUTPUT_BUFFER_LIMIT]
  refine ⟨hL, fun h => by simp [push_output_message, h], fun hc hgt => ?_,
    fun hc hle => push_output_append_of_le ctx m hc (by rw [hL]; exact hle)⟩
  have hgt' : ctx.output.length + m.payload.length > OUTPUT_BUFFER_LIMIT := by
    rw [hL]; exact hgt
  simp [push_output_message, hc, hgt', set_error]

/-- C4 counterexample: with 4_294_967_295 buffered output bytes and a 1-byte
payload the sum exceeds the claim's threshold 4_294_967_295, yet the code
appends the payload and stays open with no recorded error (because the real
limit is 4_294_967_296). -/
theorem push_output_message_limit_cex :
    4294967295 < hugeOutputCtx.output.length + oneByteMsg.payload.length ∧
    (hugeOutputCtx.push_output_message oneByteMsg).closed = false ∧
    (hugeOutputCtx.push_output_message oneByteMsg).error = none ∧
    (hugeOutputCtx.push_output_message oneByteMsg).output.length =
      4294967296 := by
  have hlen : hugeOutputCtx.output.length = 4294967295 := by
    show (List.replicate 4294967295 (0 : Nat)).length = 4294967295
    rw [List.length_replicate]
  have hpay : oneByteMsg.payload = [0] := rfl
  have h := push_output_append_of_le hugeOutputCtx oneByteMsg rfl
    (by rw [hlen, hpay]; norm_num [OUTPUT_BUFFER_LIMIT])
  refine ⟨by rw [hlen, hpay]; norm_num, h.2.1, ?_, ?_⟩
  · rw [h.2.2]; rfl
  · rw [h.1, List.length_append, hlen, hpay]; rfl

/-- Witness for C4 at small concrete inputs: appending below the limit, and
the silent drop on a closed context. -/
theorem push_output_message_limit_witness :
    ((SessionContext.new 1 2).push_output_message ⟨1, 2, .data [9]⟩).output =
      [9] ∧
    (SessionContext.new 1 2).close.push_output_message ⟨1, 2, .data [9]⟩ =
      (SessionContext.new 1 2).close := by
  have h1 := (push_output_message_limit (SessionContext.new 1 2)
    ⟨1, 2, .data [9]⟩).2.2.2 rfl (by decide)
  have h2 := (push_output_message_limit (SessionContext.new 1 2).close
    ⟨1, 2, .data [9]⟩).2.1 rfl
  exact ⟨by rw [h1.1]; rfl, h2⟩

/-- C3: `push_input_data` on a closed context fails with connection-reset and
leaves the context unchanged; on an open context (whose input respects the
32768 limit) it appends exactly `min(msg.len, 32768 - input.len)` bytes,
keeps `input.len ≤ 32768`, returns `Ready` when the whole chunk fits and
otherwise `NotReady` carrying exactly the unconsumed remainder. -/
theorem push_input_data_spec (ctx : SessionContext) (msg : List Nat) :
    (ctx.closed = true →
      ctx.push_input_data msg =
        (.ioError ⟨IOErrorKind.connectionReset, "connection has been closed"⟩,
         ctx)) ∧
    (ctx.closed = false → ctx.input.length ≤ INPUT_BUFFER_LIMIT →
      (ctx.push_input_data msg).2.input =
        ctx.input ++
          msg.take (min msg.length (INPUT_BUFFER_LIMIT - ctx.input.length)) ∧
      (ctx.push_input_data msg).2.input.length =
        ctx.input.length +
          min msg.length (INPUT_BUFFER_LIMIT - ctx.input.length) ∧
      (ctx.push_input_data msg).2.input.length ≤ INPUT_BUFFER_LIMIT ∧
      (msg.length + ctx.input.length ≤ INPUT_BUFFER_LIMIT →
        (ctx.push_input_data msg).1 = .ready) ∧
      (INPUT_BUFFER_LIMIT < msg.length + ctx.input.length →
        (ctx.push_input_data msg).1 =
          .notReady (msg.drop (INPUT_BUFFER_LIMIT - ctx.input.length)))) := by
  constructor
  · intro h
    simp [push_input_data, h]
  · intro hc hlen
    simp only [INPUT_BUFFER_LIMIT] at hlen ⊢
    rcases Nat.lt_or_ge 32768 (msg.length + ctx.input.length)
      with hbig | hsmall
    · have htake : (if msg.length + ctx.input.length > 32768 then
          32768 - ctx.input.length else msg.length) =
          32768 - ctx.input.length := if_pos hbig
      have hpos :
          0 < (ctx.input ++ msg.take (32768 - ctx.input.length)).length := by
        rw [List.length_append, List.length_take]; omega
      have hrest : 0 < (msg.drop (32768 - ctx.input.length)).length := by
        rw [List.length_drop]; omega
      have hres : ctx.push_input_data msg =
          (.notReady (msg.drop (32768 - ctx.input.length)),
           { ctx with
             input := ctx.input ++ msg.take (32768 - ctx.input.length),
             input_ready := none, input_empty := some () }) := by
        simp only [push_input_data, INPUT_BUFFER_LIMIT, hc,
          Bool.false_eq_true, if_false]
        rw [htake, if_pos hpos, if_pos hrest]
      have hmin : min msg.length (32768 - ctx.input.length) =
          32768 - ctx.input.length := by omega
      rw [hres, hmin]
      refine ⟨rfl, ?_, ?_, fun hcon => absurd hcon (by omega), fun _ => rfl⟩
      · show (ctx.input ++ msg.take (32768 - ctx.input.length)).length = _
        rw [List.length_append, List.length_take]; omega
      · show (ctx.input ++ msg.take (32768 - ctx.input.length)).length ≤ 32768
        rw [List.length_append, List.length_take]; omega
    · have htake : (if msg.length + ctx.input.length > 32768 then
          32768 - ctx.input.length else msg.length) = msg.length :=
        if_neg (by omega)
      have hmin : min msg.length (32768 - ctx.input.length) = msg.length := by
        omega
      have hnil : ¬(0 < ([] : List Nat).length) := by simp
      have hres : ctx.push_input_data msg =
          (.ready, if 0 < (ctx.input ++ msg).length then
            { ctx with input := ctx.input ++ msg, input_ready := none }
          else { ctx with input := ctx.input ++ msg }) := by
        simp only [push_input_data, INPUT_BUFFER_LIMIT, hc,
          Bool.false_eq_true, if_false]
        rw [htake, List.take_length, List.drop_length, if_neg hnil]
      rw [hres, hmin, List.take_length]
      by_cases hp : 0 < (ctx.input ++ msg).length
      · rw [if_pos hp]
        refine ⟨rfl, by rw [List.length_append], ?_, fun _ => rfl,
          fun hcon => absurd hcon (by omega)⟩
        rw [List.length_append]; omega
      · rw [if_neg hp]
        refine ⟨rfl, by rw [List.length_append], ?_, fun _ => rfl,
          fun hcon => absurd hcon (by omega)⟩
        rw [List.length_append]; omega

/-- Witness for C3: §8 scenario 4 - pushing a 40_000-byte chunk into a fresh
open context yields `NotReady` with a 7_232-byte remainder and leaves
`input.len = 32_768`; and the closed-context failure at a concrete closed
context. -/
theorem push_input_data_spec_witness :
    ((SessionContext.new 7 9).push_input_data (List.replicate 40000 0)).1 =
      .notReady (List.replicate 7232 0) ∧
    ((SessionContext.new 7 9).push_input_data
      (List.replicate 40000 0)).2.input.length = 32768 ∧
    drainCtx.push_input_data [5] =
      (.ioError ⟨IOErrorKind.connectionReset, "connection has been closed"⟩,
       drainCtx) := by
  have h := (push_input_data_spec (SessionContext.new 7 9)
    (List.replicate 40000 0)).2 rfl (by decide)
  have hclosed := (push_input_data_spec drainCtx [5]).1 rfl
  refine ⟨?_, ?_, hclosed⟩
  · have h5 := h.2.2.2.2 (by rw [List.length_replicate]; decide)
    rw [h5]
    have harith : 40000 -
        (INPUT_BUFFER_LIMIT - (SessionContext.new 7 9).input.length) =
        7232 := by decide
    have hdrop : (List.replicate 40000 (0 : Nat)).drop
        (INPUT_BUFFER_LIMIT - (SessionContext.new 7 9).input.length) =
        List.replicate 7232 0 := by
      rw [List.drop_replicate, harith]
    rw [hdrop]
  · rw [h.2.1, List.length_replicate]
    decide

/-- C6: every operation on a closed context keeps it closed and never grows
either buffer, while `take_input_message` and `take_output_data` still drain
the buffered bytes (the whole buffer, in FIFO order) leaving the buffer
empty. -/
theorem closed_context_never_grows (ctx : SessionContext) (op : SessionOp)
    (h : ctx.closed = true) :
    (applyOp ctx op).closed = true ∧
    (applyOp ctx op).input.length ≤ ctx.input.length ∧
    (applyOp ctx op).output.length ≤ ctx.output.length ∧
    (ctx.input ≠ [] →
      ctx.take_input_message.1 =
        .ready (some ⟨ctx.service_id, ctx.session_id, .data ctx.input⟩) ∧
      ctx.take_input_message.2.input = []) ∧
    (ctx.output ≠ [] →
      ctx.take_output_data.1 = .ready (some ctx.output) ∧
      ctx.take_output_data.2.output = []) := by
  have hdi : ctx.input ≠ [] →
      ctx.take_input_message.1 =
        .ready (some ⟨ctx.service_id, ctx.session_id, .data ctx.input⟩) ∧
      ctx.take_input_message.2.input = [] := by
    intro hi
    have hpos : 0 < ctx.input.length := List.length_pos.mpr hi
    simp [take_input_message, hpos]
  have hdo : ctx.output ≠ [] →
      ctx.take_output_data.1 = .ready (some ctx.output) ∧
      ctx.take_output_data.2.output = [] := by
    intro ho
    have hpos : 0 < ctx.output.length := List.length_pos.mpr ho
    simp [take_output_data, hpos]
  refine ⟨?_, ?_, ?_, hdi, hdo⟩ <;> cases op
  all_goals
    simp only [applyOp, push_output_message, push_input_data,
      take_input_message, take_output_data, flush_input_buffer, close,
      set_error, h, Bool.not_true, Bool.false_eq_true, if_true, if_false]
  all_goals repeat' split
  all_goals simp_all

/-- Witness for C6: on a concrete closed context holding data, a push attempt
does not grow the input, and both take operations drain their buffers. -/
theorem closed_context_never_grows_witness :
    (applyOp drainCtx (SessionOp.pushInput [9])).input.length ≤ 2 ∧
    (applyOp drainCtx (SessionOp.pushOutput ⟨3, 4, .data [8]⟩)).closed =
      true ∧
    drainCtx.take_input_message.1 = .ready (some ⟨3, 4, .data [1, 2]⟩) ∧
    drainCtx.take_output_data.1 = .ready (some [7]) := by
  have h1 := closed_context_never_grows drainCtx (SessionOp.pushInput [9]) rfl
  have h2 := closed_context_never_grows drainCtx
    (SessionOp.pushOutput ⟨3, 4, .data [8]⟩) rfl
  exact ⟨h1.2.1, h2.1, (h1.2.2.2.1 (by decide)).1,
    (h1.2.2.2.2 (by decide)).1⟩


/-- A context whose take yields `NotReady` yields `NotReady` again on the
context the take returns (the input stays empty and the context open). -/
theorem take_input_message_notReady_again (ctx : SessionContext)
    (h : ctx.take_input_message.1 = .notReady) :
    ctx.take_input_message.2.take_input_message.1 = .notReady := by
  by_cases hpos : 0 < ctx.input.length
  · simp [take_input_message, hpos] at h
  · by_cases hc : ctx.closed = true
    · rcases he : ctx.error with _ | e
      · simp [take_input_message, hpos, hc, he] at h
      · simp [take_input_message, hpos, hc, he] at h
    · simp [take_input_message, hpos, hc]

/-- Removing a binding from the session map only drops entries. -/
theorem mem_sessionsRemove_snd (l : List (Nat × Session)) (id : Nat)
    (q : Nat × Session) (h : q ∈ (sessionsRemove l id).2) : q ∈ l := by
  induction l with
  | nil => simp [sessionsRemove] at h
  | cons p tl ih =>
    obtain ⟨k, s⟩ := p
    by_cases hk : k = id
    · simp only [sessionsRemove, if_pos hk] at h
      exact List.mem_cons_of_mem _ h
    · simp only [sessionsRemove, if_neg hk] at h
      rcases List.mem_cons.mp h with rfl | h2
      · exact List.mem_cons_self _ _
      · exact List.mem_cons_of_mem _ (ih h2)

/-- A successful removal found its binding in the map. -/
theorem sessionsRemove_fst_mem (l : List (Nat × Session)) (id : Nat)
    (s : Session) (h : (sessionsRemove l id).1 = some s) : (id, s) ∈ l := by
  induction l with
  | nil => simp [sessionsRemove] at h
  | cons p tl ih =>
    obtain ⟨k, s'⟩ := p
    by_cases hk : k = id
    · simp only [sessionsRemove, if_pos hk] at h
      obtain rfl : s' = s := by simpa using h
      rw [← hk]
      exact List.mem_cons_self _ _
    · simp only [sessionsRemove, if_neg hk] at h
      exact List.mem_cons_of_mem _ (ih h)

/-- If every session in the map takes to `NotReady`, the poll loop returns
`NotReady` for any amount of fuel. -/
theorem pollLoop_notReady_of_all (k : Nat) :
    ∀ sm : SessionManager,
      (∀ i s, (i, s) ∈ sm.sessions →
        s.ctx.take_input_message.1 = SessionContext.TakePoll.notReady) →
      (pollLoop k sm).2 = .notReady := by
  induction k with
  | zero => intro sm _; rfl
  | succ k ih =>
    intro sm h
    rcases hpo : sm.poll_order with _ | ⟨id, rest⟩
    · simp only [pollLoop, hpo]
      exact ih sm h
    · simp only [pollLoop, hpo]
      rcases hrem : (sessionsRemove sm.sessions id).1 with _ | session
      · simp only [hrem]
        exact ih _ (fun i s hm => h i s (mem_sessionsRemove_snd _ _ _ hm))
      · simp only [hrem]
        have hns := h id session (sessionsRemove_fst_mem _ _ _ hrem)
        simp only [hns]
        refine ih _ (fun i s hm => ?_)
        rcases List.mem_append.mp hm with hm1 | hm2
        · exact h i s (mem_sessionsRemove_snd _ _ _ hm1)
        · have hq : (i, s) =
              (id, (⟨session.service_id,
                session.ctx.take_input_message.2⟩ : Session)) := by
            simpa [sessionsInsert] using hm2
          have hs : s = ⟨session.service_id,
              session.ctx.take_input_message.2⟩ := congrArg Prod.snd hq
          rw [hs]
          exact take_input_message_notReady_again session.ctx hns

/-- The instrumented loop erases to the plain loop. -/
theorem pollLoopVisited_fst (k : Nat) :
    ∀ sm : SessionManager, (pollLoopVisited k sm).1 = pollLoop k sm := by
  induction k with
  | zero => intro sm; rfl
  | succ k ih =>
    intro sm
    rcases hpo : sm.poll_order with _ | ⟨id, rest⟩
    · simp only [pollLoopVisited, pollLoop, hpo]
      exact ih sm
    · simp only [pollLoopVisited, pollLoop, hpo]
      rcases hrem : (sessionsRemove sm.sessions id).1 with _ | session
      · simp only [hrem]
        exact ih _
      · simp only [hrem]
        rcases htk : session.ctx.take_input_message.1 with ⟨_ | m⟩ | _ | e
        · simp only [htk]
        · simp only [htk]
        · simp only [htk]
          exact ih _
        · simp only [htk]

/-- The ids the loop pops are an in-order prefix of the entry queue, at most
as many as the fuel allows. -/
theorem pollLoopVisited_take (k : Nat) :
    ∀ sm : SessionManager, k ≤ sm.poll_order.length →
      (pollLoopVisited k sm).2 =
        sm.poll_order.take (pollLoopVisited k sm).2.length ∧
      (pollLoopVisited k sm).2.length ≤ k := by
  induction k with
  | zero => intro sm _; exact ⟨rfl, Nat.le_refl 0⟩
  | succ k ih =>
    intro sm hk
    rcases hpo : sm.poll_order with _ | ⟨id, rest⟩
    · rw [hpo] at hk
      exact absurd hk (by simp)
    · rw [hpo] at hk
      have hk' : k ≤ rest.length := by simpa using hk
      simp only [pollLoopVisited, hpo]
      rcases hrem : (sessionsRemove sm.sessions id).1 with _ | session
      · simp only [hrem]
        have H := ih ⟨(sessionsRemove sm.sessions id).2, rest⟩ hk'
        refine ⟨?_, ?_⟩
        · rw [List.length_cons, List.take_succ_cons, ← H.1]
        · rw [List.length_cons]
          exact Nat.succ_le_succ H.2
      · simp only [hrem]
        rcases htk : session.ctx.take_input_message.1 with ⟨_ | m⟩ | _ | e
        · simp only [htk]
          exact ⟨rfl, Nat.succ_le_succ (Nat.zero_le k)⟩
        · simp only [htk]
          exact ⟨rfl, Nat.succ_le_succ (Nat.zero_le k)⟩
        · simp only [htk]
          have hlen2 : k ≤ (rest ++ [id]).length := by
            rw [List.length_append]
            exact Nat.le_trans hk' (Nat.le_add_right _ _)
          have H := ih ⟨sessionsInsert (sessionsRemove sm.sessions id).2 id
            ⟨session.service_id, session.ctx.take_input_message.2⟩,
            rest ++ [id]⟩ hlen2
          have ht : (pollLoopVisited k
              ⟨sessionsInsert (sessionsRemove sm.sessions id).2 id
                ⟨session.service_id, session.ctx.take_input_message.2⟩,
                rest ++ [id]⟩).2 =
              rest.take (pollLoopVisited k
              ⟨sessionsInsert (sessionsRemove sm.sessions id).2 id
                ⟨session.service_id, session.ctx.take_input_message.2⟩,
                rest ++ [id]⟩).2.length :=
            H.1.trans (List.take_append_of_le_length (Nat.le_trans H.2 hk'))
          refine ⟨?_, ?_⟩
          · rw [List.length_cons, List.take_succ_cons, ← ht]
          · rw [List.length_cons]
            exact Nat.succ_le_succ H.2
        · simp only [htk]
          exact ⟨rfl, Nat.succ_le_succ (Nat.zero_le k)⟩

/-- C1: `SessionManager::poll` runs its loop with `n = poll_order.len` at
entry, so at most `n` sessions are attempted, in FIFO order of `poll_order`
(the popped ids are an in-order prefix of the entry queue of length at most
`n`, witnessed by the instrumented loop that erases to the real one); for an
attempted session, `NotReady` re-queues the id at the tail and continues,
`Ready(Some(m))` re-queues the id at the tail and returns `Ready(Some(m))`,
`Ready(None)` removes the session and returns a HUP Arrow Message
`(service_id, session_id, error_code = 0)`, and an error removes the session
and returns a HUP with `error_code = 0x03`; if no attempted session yields a
message (all takes are `NotReady`), `poll` returns `NotReady`. -/
theorem session_manager_poll_spec (sm : SessionManager) (k : Nat) (id : Nat)
    (rest : List Nat) (session : Session)
    (rest_sessions : List (Nat × Session)) :
    sm.poll = pollLoop sm.poll_order.length sm ∧
    (sm.poll_order = id :: rest →
      sessionsRemove sm.sessions id = (some session, rest_sessions) →
      ((session.ctx.take_input_message.1 = .notReady →
        pollLoop (k + 1) sm =
          pollLoop k ⟨sessionsInsert rest_sessions id
            ⟨session.service_id, session.ctx.take_input_message.2⟩,
            rest ++ [id]⟩) ∧
       (∀ m, session.ctx.take_input_message.1 = .ready (some m) →
        pollLoop (k + 1) sm =
          (⟨sessionsInsert rest_sessions id
            ⟨session.service_id, session.ctx.take_input_message.2⟩,
            rest ++ [id]⟩, .ready (some m))) ∧
       (session.ctx.take_input_message.1 = .ready none →
        pollLoop (k + 1) sm =
          (⟨rest_sessions, rest⟩,
           .ready (some (create_hup_message session.service_id id 0)))) ∧
       (∀ e, session.ctx.take_input_message.1 = .ioError e →
        pollLoop (k + 1) sm =
          (⟨rest_sessions, rest⟩,
           .ready (some (create_hup_message session.service_id id 3)))))) ∧
    ((pollLoopVisited sm.poll_order.length sm).1 = sm.poll ∧
     (pollLoopVisited sm.poll_order.length sm).2 =
       sm.poll_order.take
         (pollLoopVisited sm.poll_order.length sm).2.length ∧
     (pollLoopVisited sm.poll_order.length sm).2.length ≤
       sm.poll_order.length) ∧
    ((∀ i s, (i, s) ∈ sm.sessions →
        s.ctx.take_input_message.1 = SessionContext.TakePoll.notReady) →
      (sm.poll).2 = .notReady) := by
  refine ⟨rfl, fun hpo hrem => ?_, ?_, fun h => ?_⟩
  · have h1 : (sessionsRemove sm.sessions id).1 = some session := by
      rw [hrem]
    have h2 : (sessionsRemove sm.sessions id).2 = rest_sessions := by
      rw [hrem]
    refine ⟨fun htk => ?_, fun m htk => ?_, fun htk => ?_, fun e htk => ?_⟩
    all_goals simp only [pollLoop, hpo, h1, h2, htk]
  · have H := pollLoopVisited_take sm.poll_order.length sm
      (Nat.le_refl _)
    exact ⟨pollLoopVisited_fst sm.poll_order.length sm, H.1, H.2⟩
  · exact pollLoop_notReady_of_all sm.poll_order.length sm h

/-- Witness for C1 at a concrete manager: one closed, drained session; its
take yields `Ready(None)` and `poll` returns the HUP with error code 0,
dropping the session from both the map and the queue. -/
theorem session_manager_poll_spec_witness :
    hupFixtureMgr.poll =
      (⟨[], []⟩, .ready (some (create_hup_message 7 5 0))) := by
  have h := session_manager_poll_spec hupFixtureMgr 0 5 []
    ⟨7, (SessionContext.new 7 5).close⟩ []
  have hb := (h.2.1 rfl rfl).2.2.1 rfl
  exact h.1.trans hb

end ArrowClient
